import Mathlib

/-!
Verification of the `gcp-github-secrets` Pulumi component
(`src/index.ts`, class `GcpGithubSecrets`).

The component is a declarative reconciler: from a configuration record it
produces a fixed list of cloud resource descriptors (identity pool, OIDC
provider, service account, IAM bindings, secrets and secret versions) and a
record of output values.  We embed the constructor as a pure function from
the configuration (plus the resolved numeric project number, which the code
obtains from `gcp.organizations.getProjectOutput`) to the list of resource
descriptors and the outputs, and prove the spec's claims about it.
-/

/-- The configuration record, mirroring `GcpGithubSecretsArgs` in
`src/index.ts`.  `secrets` is a TypeScript `Record`, i.e. an ordered
association list with unique keys; `resourcePrefixArg` models the optional
`resourcePrefix` field (`none` selects the default `"github-secrets"`). -/
structure GcpGithubSecretsArgs where
  projectId : String
  allowedRepositories : List String
  secrets : List (String × String)
  resourcePrefixArg : Option String
deriving DecidableEq

/-- The ambient cloud environment: the numeric project number that
`gcp.organizations.getProjectOutput({projectId})` resolves for the
configured project (line 106 of `src/index.ts`). -/
structure GcpEnv where
  projectNumber : Nat
deriving DecidableEq

/-- `const prefix = args.resourcePrefix ?? 'github-secrets'`
(line 61 of `src/index.ts`). -/
def prefixOrDefault (args : GcpGithubSecretsArgs) : String :=
  match args.resourcePrefixArg with
  | some p => p
  | none => "github-secrets"

/-- One cloud resource descriptor, one constructor per resource kind the
component instantiates.  The first field of every constructor is the Pulumi
logical resource name (the first argument of each `new gcp...` call). -/
inductive Resource where
  | workloadIdentityPool (logicalName project poolId displayName descr : String)
  | workloadIdentityPoolProvider (logicalName project poolId providerId : String)
      (attributeCondition : Option String) (issuerUri : String)
  | serviceAccount (logicalName project accountId displayName : String)
  | projectIamMember (logicalName project role member : String)
  | serviceAccountIamMember (logicalName serviceAccountId role member : String)
  | secret (logicalName project secretId : String)
  | secretVersion (logicalName secretRef secretData : String)
deriving DecidableEq

/-- The Pulumi logical name of a descriptor (the key under which the
declarative engine reconciles it). -/
def Resource.logicalNameOf : Resource → String
  | .workloadIdentityPool n _ _ _ _ => n
  | .workloadIdentityPoolProvider n _ _ _ _ _ => n
  | .serviceAccount n _ _ _ => n
  | .projectIamMember n _ _ _ => n
  | .serviceAccountIamMember n _ _ _ => n
  | .secret n _ _ => n
  | .secretVersion n _ _ => n

/-- The service account email.  The code reads `serviceAccount.email`, which
GCP derives as `{accountId}@{projectId}.iam.gserviceaccount.com`; the
repository's shell variant constructs it with exactly this formula
(`"${SERVICE_ACCOUNT_ID}@${PROJECT_ID}.iam.gserviceaccount.com"`). -/
def serviceAccountEmailOf (args : GcpGithubSecretsArgs) : String :=
  prefixOrDefault args ++ "-reader@" ++ args.projectId ++ ".iam.gserviceaccount.com"

/-- The fully-qualified service account resource name
(`serviceAccount.name`, referenced by the wif bindings at line 115). -/
def serviceAccountNameOf (args : GcpGithubSecretsArgs) : String :=
  "projects/" ++ args.projectId ++ "/serviceAccounts/" ++ serviceAccountEmailOf args

/-- The `for (let i = 0; ...)` loop of lines 111-119: one
`gcp.serviceaccount.IAMMember` per allowed repository, logical name
`{name}-wif-{i}`, role `roles/iam.workloadIdentityUser`, member the
interpolated `principalSet://...` string built from the numeric project
number, the pool id and the repository pattern. -/
def wifBindings (name : String) (args : GcpGithubSecretsArgs) (env : GcpEnv) :
    Nat → List String → List Resource
  | _, [] => []
  | i, repo :: rest =>
      Resource.serviceAccountIamMember (name ++ "-wif-" ++ toString i)
        (serviceAccountNameOf args)
        ("roles/iam.workloadIdentityUser")
        ("principalSet://iam.googleapis.com/projects/" ++ toString env.projectNumber
          ++ "/locations/global/workloadIdentityPools/" ++ (prefixOrDefault args ++ "-pool")
          ++ "/attribute.repository/" ++ repo)
        :: wifBindings name args env (i + 1) rest

/-- The secrets loop of lines 123-139: per `(secretName, secretValue)` entry
one `gcp.secretmanager.Secret` (logical name `{name}-secret-{secretName}`,
`secretId: secretName`) and one `gcp.secretmanager.SecretVersion`
(logical name `{name}-secret-{secretName}-version`, holding the value). -/
def secretResources (name : String) (projectId : String) :
    List (String × String) → List Resource
  | [] => []
  | (sn, sv) :: rest =>
      Resource.secret (name ++ "-secret-" ++ sn) projectId sn
        :: Resource.secretVersion (name ++ "-secret-" ++ sn ++ "-version")
            ("projects/" ++ projectId ++ "/secrets/" ++ sn) sv
        :: secretResources name projectId rest

/-- The full resource list declared by the `GcpGithubSecrets` constructor,
in source order: pool (line 64), OIDC provider (line 72, note: no
`attributeCondition` property is set), service account (line 90), the
project-level secret-accessor binding (line 99), the per-repository wif
bindings (line 111) and the secret resources (line 123). -/
def gcpGithubSecretsResources (name : String) (args : GcpGithubSecretsArgs)
    (env : GcpEnv) : List Resource :=
  Resource.workloadIdentityPool (name ++ "-pool") args.projectId
      (prefixOrDefault args ++ "-pool")
      ("GitHub Actions") ("Workload identity pool for GitHub Actions OIDC")
  :: Resource.workloadIdentityPoolProvider (name ++ "-provider") args.projectId
      (prefixOrDefault args ++ "-pool") (prefixOrDefault args ++ "-github")
      none ("https://token.actions.githubusercontent.com")
  :: Resource.serviceAccount (name ++ "-sa") args.projectId
      (prefixOrDefault args ++ "-reader") ("GitHub Actions Secret Reader")
  :: Resource.projectIamMember (name ++ "-secret-accessor") args.projectId
      ("roles/secretmanager.secretAccessor")
      ("serviceAccount:" ++ serviceAccountEmailOf args)
  :: (wifBindings name args env 0 args.allowedRepositories
      ++ secretResources name args.projectId args.secrets)

/-- The component's public outputs (lines 141-153 of `src/index.ts`).
`secretNames` maps each secret name to `secret.secretId`, which the code
sets to the secret name itself (line 126/138). -/
structure GcpGithubSecretsOutputs where
  workloadIdentityPoolId : String
  workloadIdentityProviderId : String
  serviceAccountEmail : String
  workloadIdentityProvider : String
  secretNames : List (String × String)
deriving DecidableEq

/-- The output record computed by the constructor. -/
def gcpGithubSecretsOutputs (args : GcpGithubSecretsArgs) (env : GcpEnv) :
    GcpGithubSecretsOutputs :=
  { workloadIdentityPoolId := prefixOrDefault args ++ "-pool"
    workloadIdentityProviderId := prefixOrDefault args ++ "-github"
    serviceAccountEmail := serviceAccountEmailOf args
    workloadIdentityProvider :=
      "projects/" ++ toString env.projectNumber
        ++ "/locations/global/workloadIdentityPools/"
        ++ (prefixOrDefault args ++ "-pool")
        ++ "/providers/" ++ (prefixOrDefault args ++ "-github")
    secretNames := args.secrets.map (fun p => (p.1, p.1)) }

/-! ## Reconciliation over remote state

The declarative engine (and equally the repository's shell variants with
their `describe || create` guards) reconciles each declared descriptor
against the remote state by logical name: a resource whose name is already
present is left untouched, otherwise it is created.  The remote state is a
list of descriptors; applying a run appends only the missing ones. -/

/-- Does the remote state already hold a resource with this logical name? -/
def holdsName (s : List Resource) (nm : String) : Bool :=
  s.any (fun r => Resource.logicalNameOf r == nm)

/-- Create-if-absent application of one declared descriptor. -/
def applyResource (s : List Resource) (r : Resource) : List Resource :=
  if holdsName s (Resource.logicalNameOf r) then s else s ++ [r]

/-- One reconciliation run: apply every descriptor the constructor declares,
in source order, to the remote state. -/
def reconcile (s : List Resource) (name : String) (args : GcpGithubSecretsArgs)
    (env : GcpEnv) : List Resource :=
  (gcpGithubSecretsResources name args env).foldl applyResource s

/-! ## Extraction helpers used by the claims -/

/-- The IAM role granted by a descriptor, when it is a binding. -/
def Resource.roleOf : Resource → Option String
  | .projectIamMember _ _ role _ => some role
  | .serviceAccountIamMember _ _ role _ => some role
  | _ => none

/-- Number of IAM bindings granting a given role. -/
def countRole (rs : List Resource) (role : String) : Nat :=
  (rs.filter (fun r => Resource.roleOf r == some role)).length

/-- The (role, member) pair of a descriptor, when it is an IAM binding:
this pair is what determines the resulting cloud IAM policy entry. -/
def Resource.iamPairOf : Resource → Option (String × String)
  | .projectIamMember _ _ role member => some (role, member)
  | .serviceAccountIamMember _ _ role member => some (role, member)
  | _ => none

/-- The multiset-as-list of IAM policy entries declared by a run. -/
def iamPairs (rs : List Resource) : List (String × String) :=
  rs.filterMap Resource.iamPairOf

/-- Is this descriptor a secret container with the given `secretId`? -/
def isSecretNamed (n : String) : Resource → Bool
  | .secret _ _ sid => sid == n
  | _ => false

/-- Number of secret containers keyed by a given name. -/
def countSecretContainers (rs : List Resource) (n : String) : Nat :=
  (rs.filter (isSecretNamed n)).length

/-- Is this descriptor a service account? -/
def isServiceAccount : Resource → Bool
  | .serviceAccount _ _ _ _ => true
  | _ => false

/-- Number of service accounts declared by a run. -/
def countServiceAccounts (rs : List Resource) : Nat :=
  (rs.filter isServiceAccount).length

example :
    gcpGithubSecretsOutputs
      { projectId := "p1", allowedRepositories := ["acme/*"],
        secrets := [("npm-token", "t1")], resourcePrefixArg := some "gs" }
      { projectNumber := 123456789 }
    = { workloadIdentityPoolId := "gs-pool"
        workloadIdentityProviderId := "gs-github"
        serviceAccountEmail := "gs-reader@p1.iam.gserviceaccount.com"
        workloadIdentityProvider :=
          "projects/123456789/locations/global/workloadIdentityPools/gs-pool/providers/gs-github"
        secretNames := [("npm-token", "npm-token")] } := by decide

/-! ## The remote secret store -/

/-- Modelled from the spec: the remote Secret Manager store, which holds the
versioned secret values and is not part of this repository's code.  A store
is a list of named containers, each holding its versions oldest-first; the
spec: "value is versioned — each write creates a new immutable version,
never overwriting prior versions", and "latest" always resolves to the most
recently added version. -/
abbrev SecretStore : Type := List (String × List String)

/-- The versions held under a container name (empty when absent). -/
def versionsOf (s : SecretStore) (n : String) : List String :=
  match List.lookup n s with
  | some vs => vs
  | none => []

/-- Append a version to a container, creating the container if absent. -/
def appendVersion : SecretStore → String → String → SecretStore
  | [], n, v => [(n, [v])]
  | (m, vs) :: rest, n, v =>
      if m == n then (m, vs ++ [v]) :: rest
      else (m, vs) :: appendVersion rest n v

/-- Modelled from the spec: one write of step 8 of the reconcile contract —
"ensure a secret container exists (by name) and add a new version holding
the current value if the latest stored version's content differs, or
unconditionally on first creation.  Do not delete or overwrite historical
versions." -/
def writeSecret (s : SecretStore) (n v : String) : SecretStore :=
  match List.lookup n s with
  | none => appendVersion s n v
  | some vs => if vs.getLast? = some v then s else appendVersion s n v

/-! ## Helper lemmas: create-if-absent reconciliation -/

theorem holdsName_applyResource_self (s : List Resource) (r : Resource) :
    holdsName (applyResource s r) (Resource.logicalNameOf r) = true := by
  unfold applyResource
  split
  · assumption
  · unfold holdsName
    rw [List.any_append]
    simp [holdsName]

theorem holdsName_applyResource_mono (s : List Resource) (r : Resource) (nm : String)
    (h : holdsName s nm = true) : holdsName (applyResource s r) nm = true := by
  unfold applyResource
  split
  · exact h
  · unfold holdsName at h ⊢
    rw [List.any_append, h, Bool.true_or]

theorem holdsName_foldl_mono (l : List Resource) (s : List Resource) (nm : String)
    (h : holdsName s nm = true) : holdsName (l.foldl applyResource s) nm = true := by
  induction l generalizing s with
  | nil => exact h
  | cons r rest ih =>
      simp only [List.foldl_cons]
      exact ih _ (holdsName_applyResource_mono s r nm h)

theorem holdsName_foldl_of_mem (l : List Resource) :
    ∀ (s : List Resource) (r : Resource), r ∈ l →
      holdsName (l.foldl applyResource s) (Resource.logicalNameOf r) = true := by
  induction l with
  | nil => intro s r h; cases h
  | cons a rest ih =>
      intro s r h
      simp only [List.foldl_cons]
      rcases List.mem_cons.mp h with h1 | h2
      · rw [h1]
        exact holdsName_foldl_mono rest _ _ (holdsName_applyResource_self s a)
      · exact ih _ r h2

theorem foldl_applyResource_of_holds (l : List Resource) (s : List Resource)
    (h : ∀ r ∈ l, holdsName s (Resource.logicalNameOf r) = true) :
    l.foldl applyResource s = s := by
  induction l with
  | nil => rfl
  | cons a rest ih =>
      have ha : applyResource s a = s := by
        unfold applyResource
        rw [h a (List.mem_cons_self a rest)]
        simp
      simp only [List.foldl_cons, ha]
      exact ih (fun r hr => h r (List.mem_cons_of_mem a hr))

/-! ## Helper lemmas: counting declared resources -/

theorem countRole_append (a b : List Resource) (r : String) :
    countRole (a ++ b) r = countRole a r + countRole b r := by
  simp [countRole, List.filter_append]

theorem countRole_wifBindings_user (name : String) (args : GcpGithubSecretsArgs)
    (env : GcpEnv) (i : Nat) (l : List String) :
    countRole (wifBindings name args env i l) ("roles/iam.workloadIdentityUser")
      = l.length := by
  induction l generalizing i with
  | nil => rfl
  | cons repo rest ih =>
      simp [wifBindings, countRole, Resource.roleOf, List.filter] at ih ⊢
      exact ih (i + 1)

theorem countRole_wifBindings_accessor (name : String) (args : GcpGithubSecretsArgs)
    (env : GcpEnv) (i : Nat) (l : List String) :
    countRole (wifBindings name args env i l) ("roles/secretmanager.secretAccessor")
      = 0 := by
  induction l generalizing i with
  | nil => rfl
  | cons repo rest ih =>
      simp [wifBindings, countRole, Resource.roleOf, List.filter] at ih ⊢
      exact ih (i + 1)

theorem countRole_secretResources (name : String) (pid : String)
    (l : List (String × String)) (r : String) :
    countRole (secretResources name pid l) r = 0 := by
  induction l with
  | nil => rfl
  | cons p rest ih =>
      simp [secretResources, countRole, Resource.roleOf, List.filter] at ih ⊢
      exact ih

theorem countSecretContainers_append (a b : List Resource) (n : String) :
    countSecretContainers (a ++ b) n
      = countSecretContainers a n + countSecretContainers b n := by
  simp [countSecretContainers, List.filter_append]

theorem countSecretContainers_wifBindings (name : String)
    (args : GcpGithubSecretsArgs) (env : GcpEnv) (i : Nat) (l : List String)
    (n : String) :
    countSecretContainers (wifBindings name args env i l) n = 0 := by
  induction l generalizing i with
  | nil => rfl
  | cons repo rest ih =>
      simp [wifBindings, countSecretContainers, isSecretNamed, List.filter] at ih ⊢
      exact ih (i + 1)

theorem countSecretContainers_secretResources (name : String) (pid : String)
    (l : List (String × String)) (n : String) :
    countSecretContainers (secretResources name pid l) n
      = (l.map Prod.fst).count n := by
  induction l with
  | nil => rfl
  | cons p rest ih =>
      rcases p with ⟨sn, sv⟩
      by_cases hsn : sn = n
      · have hb : (sn == n) = true := beq_iff_eq.mpr hsn
        simp [secretResources, countSecretContainers, isSecretNamed, List.filter,
          List.count_cons, hb] at ih ⊢
        omega
      · have hb : (sn == n) = false := beq_eq_false_iff_ne.mpr hsn
        simp [secretResources, countSecretContainers, isSecretNamed, List.filter,
          List.count_cons, hb] at ih ⊢
        exact ih

theorem countServiceAccounts_append (a b : List Resource) :
    countServiceAccounts (a ++ b)
      = countServiceAccounts a + countServiceAccounts b := by
  simp [countServiceAccounts, List.filter_append]

theorem countServiceAccounts_wifBindings (name : String)
    (args : GcpGithubSecretsArgs) (env : GcpEnv) (i : Nat) (l : List String) :
    countServiceAccounts (wifBindings name args env i l) = 0 := by
  induction l generalizing i with
  | nil => rfl
  | cons repo rest ih =>
      simp [wifBindings, countServiceAccounts, isServiceAccount, List.filter] at ih ⊢
      exact ih (i + 1)

theorem countServiceAccounts_secretResources (name : String) (pid : String)
    (l : List (String × String)) :
    countServiceAccounts (secretResources name pid l) = 0 := by
  induction l with
  | nil => rfl
  | cons p rest ih =>
      simp [secretResources, countServiceAccounts, isServiceAccount, List.filter] at ih ⊢
      exact ih

theorem iamPairs_append (a b : List Resource) :
    iamPairs (a ++ b) = iamPairs a ++ iamPairs b := by
  simp [iamPairs]

theorem iamPairs_wifBindings (name : String) (args : GcpGithubSecretsArgs)
    (env : GcpEnv) (i : Nat) (l : List String) :
    iamPairs (wifBindings name args env i l)
      = l.map (fun repo =>
          (("roles/iam.workloadIdentityUser" : String),
            "principalSet://iam.googleapis.com/projects/" ++ toString env.projectNumber
              ++ "/locations/global/workloadIdentityPools/"
              ++ (prefixOrDefault args ++ "-pool")
              ++ "/attribute.repository/" ++ repo)) := by
  induction l generalizing i with
  | nil => rfl
  | cons repo rest ih =>
      simp [wifBindings, iamPairs, Resource.iamPairOf] at ih ⊢
      exact ih (i + 1)

theorem iamPairs_secretResources (name : String) (pid : String)
    (l : List (String × String)) :
    iamPairs (secretResources name pid l) = [] := by
  induction l with
  | nil => rfl
  | cons p rest ih =>
      simp [secretResources, iamPairs, Resource.iamPairOf] at ih ⊢
      exact ih

theorem wifBindings_length (name : String) (args : GcpGithubSecretsArgs)
    (env : GcpEnv) (i : Nat) (l : List String) :
    (wifBindings name args env i l).length = l.length := by
  induction l generalizing i with
  | nil => rfl
  | cons repo rest ih =>
      simp [wifBindings] at ih ⊢
      exact ih (i + 1)

theorem secretResources_length (name : String) (pid : String)
    (l : List (String × String)) :
    (secretResources name pid l).length = 2 * l.length := by
  induction l with
  | nil => rfl
  | cons p rest ih =>
      simp [secretResources] at ih ⊢
      omega

theorem wifBindings_get? (name : String) (args : GcpGithubSecretsArgs)
    (env : GcpEnv) (i : Nat) (l : List String) (j : Nat) :
    (wifBindings name args env i l).get? j
      = (l.get? j).map (fun repo =>
          Resource.serviceAccountIamMember (name ++ "-wif-" ++ toString (i + j))
            (serviceAccountNameOf args)
            ("roles/iam.workloadIdentityUser")
            ("principalSet://iam.googleapis.com/projects/" ++ toString env.projectNumber
              ++ "/locations/global/workloadIdentityPools/"
              ++ (prefixOrDefault args ++ "-pool")
              ++ "/attribute.repository/" ++ repo)) := by
  induction l generalizing i j with
  | nil => simp [wifBindings]
  | cons repo rest ih =>
      cases j with
      | zero => simp [wifBindings]
      | succ k =>
          simp only [wifBindings, List.get?]
          rw [ih (i + 1) k]
          have : i + 1 + k = i + (k + 1) := by omega
          rw [this]

/-! ## Helper lemmas: counting over the full declared list -/

theorem countRole_cons (r : Resource) (rs : List Resource) (role : String) :
    countRole (r :: rs) role
      = (if (Resource.roleOf r == some role) = true then 1 else 0) + countRole rs role := by
  by_cases h : (Resource.roleOf r == some role) = true
  · simp [countRole, List.filter, h, Nat.add_comm]
  · simp [countRole, List.filter, h]

theorem countSecretContainers_cons (r : Resource) (rs : List Resource) (n : String) :
    countSecretContainers (r :: rs) n
      = (if isSecretNamed n r = true then 1 else 0) + countSecretContainers rs n := by
  by_cases h : isSecretNamed n r = true
  · simp [countSecretContainers, List.filter, h, Nat.add_comm]
  · simp [countSecretContainers, List.filter, h]

theorem countServiceAccounts_cons (r : Resource) (rs : List Resource) :
    countServiceAccounts (r :: rs)
      = (if isServiceAccount r = true then 1 else 0) + countServiceAccounts rs := by
  by_cases h : isServiceAccount r = true
  · simp [countServiceAccounts, List.filter, h, Nat.add_comm]
  · simp [countServiceAccounts, List.filter, h]

theorem countRole_resources_user (name : String) (args : GcpGithubSecretsArgs)
    (env : GcpEnv) :
    countRole (gcpGithubSecretsResources name args env)
      ("roles/iam.workloadIdentityUser") = args.allowedRepositories.length := by
  unfold gcpGithubSecretsResources
  rw [countRole_cons, countRole_cons, countRole_cons, countRole_cons, countRole_append,
    countRole_wifBindings_user, countRole_secretResources]
  simp [Resource.roleOf]

theorem countRole_resources_accessor (name : String) (args : GcpGithubSecretsArgs)
    (env : GcpEnv) :
    countRole (gcpGithubSecretsResources name args env)
      ("roles/secretmanager.secretAccessor") = 1 := by
  unfold gcpGithubSecretsResources
  rw [countRole_cons, countRole_cons, countRole_cons, countRole_cons, countRole_append,
    countRole_wifBindings_accessor, countRole_secretResources]
  simp [Resource.roleOf]

/-- Is this descriptor an impersonation binding (role
`roles/iam.workloadIdentityUser`) on the given service account? -/
def isImpersonationOn (sa : String) : Resource → Bool
  | .serviceAccountIamMember _ said role _ =>
      said == sa && role == "roles/iam.workloadIdentityUser"
  | _ => false

/-- Number of impersonation bindings targeting a given service account. -/
def countImpersonationOn (rs : List Resource) (sa : String) : Nat :=
  (rs.filter (isImpersonationOn sa)).length

theorem countImpersonationOn_append (a b : List Resource) (sa : String) :
    countImpersonationOn (a ++ b) sa
      = countImpersonationOn a sa + countImpersonationOn b sa := by
  simp [countImpersonationOn, List.filter_append]

theorem countImpersonationOn_cons (r : Resource) (rs : List Resource) (sa : String) :
    countImpersonationOn (r :: rs) sa
      = (if isImpersonationOn sa r = true then 1 else 0) + countImpersonationOn rs sa := by
  by_cases h : isImpersonationOn sa r = true
  · simp [countImpersonationOn, List.filter, h, Nat.add_comm]
  · simp [countImpersonationOn, List.filter, h]

theorem countImpersonationOn_wifBindings (name : String) (args : GcpGithubSecretsArgs)
    (env : GcpEnv) (i : Nat) (l : List String) :
    countImpersonationOn (wifBindings name args env i l) (serviceAccountNameOf args)
      = l.length := by
  induction l generalizing i with
  | nil => rfl
  | cons repo rest ih =>
      simp [wifBindings, countImpersonationOn, isImpersonationOn, List.filter] at ih ⊢
      exact ih (i + 1)

theorem countImpersonationOn_secretResources (name : String) (pid : String)
    (l : List (String × String)) (sa : String) :
    countImpersonationOn (secretResources name pid l) sa = 0 := by
  induction l with
  | nil => rfl
  | cons p rest ih =>
      simp [secretResources, countImpersonationOn, isImpersonationOn, List.filter] at ih ⊢
      exact ih

theorem countSecretContainers_resources (name : String) (args : GcpGithubSecretsArgs)
    (env : GcpEnv) (n : String) :
    countSecretContainers (gcpGithubSecretsResources name args env) n
      = (args.secrets.map Prod.fst).count n := by
  unfold gcpGithubSecretsResources
  rw [countSecretContainers_cons, countSecretContainers_cons, countSecretContainers_cons,
    countSecretContainers_cons, countSecretContainers_append,
    countSecretContainers_wifBindings, countSecretContainers_secretResources]
  simp [isSecretNamed]

theorem iamPairs_cons (r : Resource) (rs : List Resource) :
    iamPairs (r :: rs) = (Resource.iamPairOf r).toList ++ iamPairs rs := by
  cases h : Resource.iamPairOf r <;> simp [iamPairs, List.filterMap_cons, h]

theorem iamPairs_resources (name : String) (args : GcpGithubSecretsArgs) (env : GcpEnv) :
    iamPairs (gcpGithubSecretsResources name args env)
      = (("roles/secretmanager.secretAccessor" : String),
          "serviceAccount:" ++ serviceAccountEmailOf args)
        :: args.allowedRepositories.map (fun repo =>
            (("roles/iam.workloadIdentityUser" : String),
              "principalSet://iam.googleapis.com/projects/" ++ toString env.projectNumber
                ++ "/locations/global/workloadIdentityPools/"
                ++ (prefixOrDefault args ++ "-pool")
                ++ "/attribute.repository/" ++ repo)) := by
  unfold gcpGithubSecretsResources
  rw [iamPairs_cons, iamPairs_cons, iamPairs_cons, iamPairs_cons, iamPairs_append,
    iamPairs_wifBindings, iamPairs_secretResources]
  simp [Resource.iamPairOf]

/-! ## Helper lemmas: the secret store -/

theorem lookup_appendVersion_self (s : SecretStore) (n v : String) :
    List.lookup n (appendVersion s n v) = some (versionsOf s n ++ [v]) := by
  induction s with
  | nil => simp [appendVersion, versionsOf, List.lookup]
  | cons p rest ih =>
      rcases p with ⟨m, vs⟩
      by_cases hmn : m = n
      · have hb : (m == n) = true := beq_iff_eq.mpr hmn
        have hb2 : (n == m) = true := beq_iff_eq.mpr hmn.symm
        simp [appendVersion, versionsOf, List.lookup, hb, hb2]
      · have hb : (m == n) = false := beq_eq_false_iff_ne.mpr hmn
        have hb2 : (n == m) = false := beq_eq_false_iff_ne.mpr (Ne.symm hmn)
        simp only [appendVersion, versionsOf, List.lookup, hb, hb2] at ih ⊢
        exact ih

theorem lookup_appendVersion_other (s : SecretStore) (n v m : String) (h : m ≠ n) :
    List.lookup m (appendVersion s n v) = List.lookup m s := by
  induction s with
  | nil => simp [appendVersion, List.lookup, beq_eq_false_iff_ne.mpr h]
  | cons p rest ih =>
      rcases p with ⟨k, vs⟩
      by_cases hkn : k = n
      · have hb : (k == n) = true := beq_iff_eq.mpr hkn
        have hmk : (m == k) = false := by
          apply beq_eq_false_iff_ne.mpr
          rw [hkn]
          exact h
        simp [appendVersion, List.lookup, hb, hmk]
      · have hb : (k == n) = false := beq_eq_false_iff_ne.mpr hkn
        cases hmk : (m == k) with
        | true => simp [appendVersion, List.lookup, hb, hmk]
        | false =>
            simp only [appendVersion, List.lookup, hb, hmk] at ih ⊢
            exact ih

theorem versionsOf_appendVersion_self (s : SecretStore) (n v : String) :
    versionsOf (appendVersion s n v) n = versionsOf s n ++ [v] := by
  simp [versionsOf, lookup_appendVersion_self]

theorem versionsOf_appendVersion_other (s : SecretStore) (n v m : String)
    (h : m ≠ n) : versionsOf (appendVersion s n v) m = versionsOf s m := by
  unfold versionsOf
  rw [lookup_appendVersion_other s n v m h]

theorem versionsOf_writeSecret_other (s : SecretStore) (n v m : String)
    (h : m ≠ n) : versionsOf (writeSecret s n v) m = versionsOf s m := by
  unfold writeSecret
  cases List.lookup n s with
  | none => exact versionsOf_appendVersion_other s n v m h
  | some vs =>
      by_cases hl : vs.getLast? = some v
      · simp [hl]
      · simp only [hl, if_false]
        exact versionsOf_appendVersion_other s n v m h

theorem versionsOf_writeSecret_self (s : SecretStore) (n v : String) :
    versionsOf (writeSecret s n v) n
      = if (versionsOf s n).getLast? = some v then versionsOf s n
        else versionsOf s n ++ [v] := by
  unfold writeSecret
  cases hl : List.lookup n s with
  | none =>
      have hv : versionsOf s n = [] := by unfold versionsOf; rw [hl]
      rw [versionsOf_appendVersion_self, hv]
      simp
  | some vs =>
      have hv : versionsOf s n = vs := by unfold versionsOf; rw [hl]
      by_cases hlast : vs.getLast? = some v
      · simp [hlast, hv]
      · simp only [hv, hlast, if_false]
        rw [← hv]
        exact versionsOf_appendVersion_self s n v

theorem writeSecret_fresh (s : SecretStore) (n v : String)
    (h : List.lookup n s = none) : writeSecret s n v = appendVersion s n v := by
  unfold writeSecret
  rw [h]

theorem writeSecret_changed (s : SecretStore) (n v : String) (vs : List String)
    (h : List.lookup n s = some vs) (hne : vs.getLast? ≠ some v) :
    writeSecret s n v = appendVersion s n v := by
  unfold writeSecret
  rw [h]
  exact if_neg hne

/-! ## The claims -/

/-- C1: Reconciliation is idempotent.  In the embedding the outputs and the
declared descriptor list are pure functions of the configuration (and the
resolved project number), so run-to-run identity of the output values is
definitional; the nontrivial content is that replaying the whole declared
list against a state that already went through one run changes nothing —
no duplicate resource is created on the second run, from any starting
state. -/
theorem c1_reconcile_idempotent (s : List Resource) (name : String)
    (args : GcpGithubSecretsArgs) (env : GcpEnv) :
    reconcile (reconcile s name args env) name args env
      = reconcile s name args env := by
  unfold reconcile
  exact foldl_applyResource_of_holds _ _
    (fun r hr => holdsName_foldl_of_mem _ s r hr)

/-- A configuration with no allowed repositories and no secrets. -/
def emptyReposArgs : GcpGithubSecretsArgs :=
  { projectId := "p1", allowedRepositories := [], secrets := [],
    resourcePrefixArg := none }

/-- C2 counterexample: with zero allowed repository patterns the constructor
still declares the pool and the provider — the provider with no
`attributeCondition` at all (the code never sets that property) — and zero
impersonation bindings, with no flag or rejection of any kind: the declared
list is exactly pool, provider, service account and the (non-repository)
secret-accessor binding. -/
theorem c2_counterexample :
    gcpGithubSecretsResources "deploy" emptyReposArgs { projectNumber := 7 }
      = [Resource.workloadIdentityPool ("deploy-pool") ("p1") ("github-secrets-pool")
            ("GitHub Actions") ("Workload identity pool for GitHub Actions OIDC"),
         Resource.workloadIdentityPoolProvider ("deploy-provider") ("p1")
            ("github-secrets-pool") ("github-secrets-github") none
            ("https://token.actions.githubusercontent.com"),
         Resource.serviceAccount ("deploy-sa") ("p1") ("github-secrets-reader")
            ("GitHub Actions Secret Reader"),
         Resource.projectIamMember ("deploy-secret-accessor") ("p1")
            ("roles/secretmanager.secretAccessor")
            ("serviceAccount:github-secrets-reader@p1.iam.gserviceaccount.com")] := by
  decide

/-- C2 (amended): the component performs no unscoped-provider validation.
For every configuration the provider is declared with `attributeCondition`
absent, and a configuration whose `allowedRepositories` is empty yields the
pool+provider pair together with zero `roles/iam.workloadIdentityUser`
bindings — deployed without any flag or rejection. -/
theorem c2_no_unscoped_provider_guard (name : String)
    (args : GcpGithubSecretsArgs) (env : GcpEnv) :
    Resource.workloadIdentityPoolProvider (name ++ "-provider") args.projectId
        (prefixOrDefault args ++ "-pool") (prefixOrDefault args ++ "-github")
        none ("https://token.actions.githubusercontent.com")
      ∈ gcpGithubSecretsResources name args env
    ∧ (args.allowedRepositories = [] →
        countRole (gcpGithubSecretsResources name args env)
          ("roles/iam.workloadIdentityUser") = 0) := by
  constructor
  · unfold gcpGithubSecretsResources
    exact List.mem_cons_of_mem _ (List.mem_cons_self _ _)
  · intro he
    rw [countRole_resources_user, he]
    rfl

theorem c2_no_unscoped_provider_guard_witness :
    countRole (gcpGithubSecretsResources "deploy" emptyReposArgs { projectNumber := 7 })
      ("roles/iam.workloadIdentityUser") = 0 :=
  (c2_no_unscoped_provider_guard "deploy" emptyReposArgs { projectNumber := 7 }).2 rfl

/-- A configuration whose single repository pattern contains no slash. -/
def noSlashArgs : GcpGithubSecretsArgs :=
  { projectId := "p1", allowedRepositories := ["foo"], secrets := [],
    resourcePrefixArg := none }

/-- C3 counterexample: the pattern "foo" contains no '/' and yet the
reconcile operation does not fail: the constructor declares the full
resource list, including an impersonation binding whose principal embeds
the unvalidated pattern verbatim. -/
theorem c3_counterexample :
    (("foo").data.contains '/') = false
    ∧ gcpGithubSecretsResources "deploy" noSlashArgs { projectNumber := 7 }
      = [Resource.workloadIdentityPool ("deploy-pool") ("p1") ("github-secrets-pool")
            ("GitHub Actions") ("Workload identity pool for GitHub Actions OIDC"),
         Resource.workloadIdentityPoolProvider ("deploy-provider") ("p1")
            ("github-secrets-pool") ("github-secrets-github") none
            ("https://token.actions.githubusercontent.com"),
         Resource.serviceAccount ("deploy-sa") ("p1") ("github-secrets-reader")
            ("GitHub Actions Secret Reader"),
         Resource.projectIamMember ("deploy-secret-accessor") ("p1")
            ("roles/secretmanager.secretAccessor")
            ("serviceAccount:github-secrets-reader@p1.iam.gserviceaccount.com"),
         Resource.serviceAccountIamMember ("deploy-wif-0")
            ("projects/p1/serviceAccounts/github-secrets-reader@p1.iam.gserviceaccount.com")
            ("roles/iam.workloadIdentityUser")
            ("principalSet://iam.googleapis.com/projects/7/locations/global/workloadIdentityPools/github-secrets-pool/attribute.repository/foo")] := by
  constructor
  · decide
  · decide

/-- C3 (amended): the component performs no pattern validation and can never
fail: for every configuration — whether or not its patterns contain '/' —
the constructor declares the complete resource list of
4 + n + 2k descriptors (n patterns, k secrets). -/
theorem c3_no_pattern_validation (name : String) (args : GcpGithubSecretsArgs)
    (env : GcpEnv) :
    (gcpGithubSecretsResources name args env).length
      = 4 + args.allowedRepositories.length + 2 * args.secrets.length := by
  simp [gcpGithubSecretsResources, wifBindings_length, secretResources_length]
  omega

/-- C4: binding cardinality — exactly `n = len(allowedRepositories)`
impersonation bindings (role `roles/iam.workloadIdentityUser`, each
targeting the one service identity) plus exactly one
`roles/secretmanager.secretAccessor` binding. -/
theorem c4_binding_cardinality (name : String) (args : GcpGithubSecretsArgs)
    (env : GcpEnv) :
    countImpersonationOn (gcpGithubSecretsResources name args env)
        (serviceAccountNameOf args) = args.allowedRepositories.length
    ∧ countRole (gcpGithubSecretsResources name args env)
        ("roles/iam.workloadIdentityUser") = args.allowedRepositories.length
    ∧ countRole (gcpGithubSecretsResources name args env)
        ("roles/secretmanager.secretAccessor") = 1 := by
  refine ⟨?_, countRole_resources_user name args env,
    countRole_resources_accessor name args env⟩
  unfold gcpGithubSecretsResources
  rw [countImpersonationOn_cons, countImpersonationOn_cons, countImpersonationOn_cons,
    countImpersonationOn_cons, countImpersonationOn_append,
    countImpersonationOn_wifBindings, countImpersonationOn_secretResources]
  simp [isImpersonationOn]

/-- C5: the returned `workloadIdentityProvider` output is exactly
`projects/{projectNumber}/locations/global/workloadIdentityPools/{poolId}/providers/{providerId}`
for every configuration, and for projectNumber 123456789 with the default
prefix (poolId `github-secrets-pool`, providerId `github-secrets-github`)
it is exactly the string the spec demands. -/
theorem c5_provider_name_format (args : GcpGithubSecretsArgs) (env : GcpEnv) :
    (gcpGithubSecretsOutputs args env).workloadIdentityProvider
      = "projects/" ++ toString env.projectNumber
        ++ "/locations/global/workloadIdentityPools/"
        ++ (prefixOrDefault args ++ "-pool")
        ++ "/providers/" ++ (prefixOrDefault args ++ "-github")
    ∧ (gcpGithubSecretsOutputs
          { projectId := "my-project", allowedRepositories := [], secrets := [],
            resourcePrefixArg := none }
          { projectNumber := 123456789 }).workloadIdentityProvider
      = "projects/123456789/locations/global/workloadIdentityPools/github-secrets-pool/providers/github-secrets-github" :=
  ⟨rfl, by decide⟩

/-- C6: each impersonation binding's member is the fully-qualified
`principalSet` built from the resolved numeric project number (a `Nat`, not
the textual `projectId`), the pool id derived from the prefix, and the
repository pattern. -/
theorem c6_principal_uses_project_number (name : String)
    (args : GcpGithubSecretsArgs) (env : GcpEnv) (j : Nat)
    (h : j < args.allowedRepositories.length) :
    (wifBindings name args env 0 args.allowedRepositories).get? j
      = some (Resource.serviceAccountIamMember (name ++ "-wif-" ++ toString j)
          (serviceAccountNameOf args)
          ("roles/iam.workloadIdentityUser")
          ("principalSet://iam.googleapis.com/projects/" ++ toString env.projectNumber
            ++ "/locations/global/workloadIdentityPools/"
            ++ (prefixOrDefault args ++ "-pool")
            ++ "/attribute.repository/" ++ args.allowedRepositories.get ⟨j, h⟩)) := by
  rw [wifBindings_get?, List.get?_eq_get h]
  simp

/-- A one-repository example configuration. -/
def oneRepoArgs : GcpGithubSecretsArgs :=
  { projectId := "p1", allowedRepositories := ["acme/widgets"], secrets := [],
    resourcePrefixArg := none }

theorem c6_principal_uses_project_number_witness :
    (wifBindings "deploy" oneRepoArgs { projectNumber := 42 } 0
        oneRepoArgs.allowedRepositories).get? 0
      = some (Resource.serviceAccountIamMember ("deploy-wif-0")
          ("projects/p1/serviceAccounts/github-secrets-reader@p1.iam.gserviceaccount.com")
          ("roles/iam.workloadIdentityUser")
          ("principalSet://iam.googleapis.com/projects/42/locations/global/workloadIdentityPools/github-secrets-pool/attribute.repository/acme/widgets")) := by
  rw [c6_principal_uses_project_number "deploy" oneRepoArgs { projectNumber := 42 } 0
    (by decide)]
  rfl

/-- C7: per configured secret name/value pair exactly one secret container
keyed by that name is declared (given the `Record`'s unique keys), and in
the spec-modelled store a write appends a version exactly when the latest
content differs or on first creation, never removing or altering existing
versions; writing A then B to a fresh name yields versions [A, B], with
"latest" resolving to B and A still at version index 0. -/
theorem c7_secret_handling (name : String) (args : GcpGithubSecretsArgs)
    (env : GcpEnv) (p : String × String)
    (hnd : (args.secrets.map Prod.fst).Nodup) (hp : p ∈ args.secrets)
    (s : SecretStore) (n vA vB : String)
    (hnew : List.lookup n s = none) (hAB : vA ≠ vB) :
    countSecretContainers (gcpGithubSecretsResources name args env) p.1 = 1
    ∧ (∀ (t : SecretStore) (n2 v m : String), ∃ tail,
        versionsOf (writeSecret t n2 v) m = versionsOf t m ++ tail)
    ∧ versionsOf (writeSecret (writeSecret s n vA) n vB) n = [vA, vB]
    ∧ (versionsOf (writeSecret (writeSecret s n vA) n vB) n).getLast? = some vB
    ∧ (versionsOf (writeSecret (writeSecret s n vA) n vB) n).get? 0 = some vA := by
  have h1 := writeSecret_fresh s n vA hnew
  have hv0 : versionsOf s n = [] := by
    unfold versionsOf
    rw [hnew]
  have hva : versionsOf (writeSecret s n vA) n = [vA] := by
    rw [h1, versionsOf_appendVersion_self, hv0]
    rfl
  have hlx : List.lookup n (writeSecret s n vA) = some [vA] := by
    rw [h1, lookup_appendVersion_self, hv0]
    rfl
  have h2 : writeSecret (writeSecret s n vA) n vB
      = appendVersion (writeSecret s n vA) n vB := by
    apply writeSecret_changed _ _ _ [vA] hlx
    simp [List.getLast?]
    exact hAB
  have hfinal : versionsOf (writeSecret (writeSecret s n vA) n vB) n = [vA, vB] := by
    rw [h2, versionsOf_appendVersion_self, hva]
    rfl
  refine ⟨?_, ?_, hfinal, ?_, ?_⟩
  · rw [countSecretContainers_resources]
    exact List.count_eq_one_of_mem hnd (List.mem_map_of_mem Prod.fst hp)
  · intro t n2 v m
    by_cases hm : m = n2
    · rw [hm, versionsOf_writeSecret_self]
      by_cases hl : (versionsOf t n2).getLast? = some v
      · exact ⟨[], by rw [if_pos hl, List.append_nil]⟩
      · exact ⟨[v], by rw [if_neg hl]⟩
    · exact ⟨[], by rw [versionsOf_writeSecret_other t n2 v m hm, List.append_nil]⟩
  · rw [hfinal]
    rfl
  · rw [hfinal]
    rfl

/-- The end-to-end example configuration of the spec (section 8). -/
def gsArgs : GcpGithubSecretsArgs :=
  { projectId := "p1", allowedRepositories := ["acme/*"],
    secrets := [("npm-token", "t1")], resourcePrefixArg := some "gs" }

theorem c7_secret_handling_witness :
    countSecretContainers
        (gcpGithubSecretsResources "deploy" gsArgs { projectNumber := 9 })
        ("npm-token") = 1
    ∧ versionsOf (writeSecret (writeSecret [] "npm-token" "A") "npm-token" "B")
        ("npm-token") = ["A", "B"] :=
  ⟨(c7_secret_handling "deploy" gsArgs { projectNumber := 9 } ("npm-token", "t1")
      (by decide) (by decide) [] "npm-token" "A" "B" rfl (by decide)).1,
   (c7_secret_handling "deploy" gsArgs { projectNumber := 9 } ("npm-token", "t1")
      (by decide) (by decide) [] "npm-token" "A" "B" rfl (by decide)).2.2.1⟩

/-- C8: pool, provider and service-identity ids are derived
deterministically from the resource prefix as `{prefix}-pool`,
`{prefix}-github` and `{prefix}-reader` (the latter visible through the
service account email); with prefix "gs" they are `gs-pool`, `gs-github`
and `gs-reader@p1.iam.gserviceaccount.com`. -/
theorem c8_deterministic_resource_ids (args : GcpGithubSecretsArgs) (env : GcpEnv) :
    (gcpGithubSecretsOutputs args env).workloadIdentityPoolId
      = prefixOrDefault args ++ "-pool"
    ∧ (gcpGithubSecretsOutputs args env).workloadIdentityProviderId
      = prefixOrDefault args ++ "-github"
    ∧ (gcpGithubSecretsOutputs args env).serviceAccountEmail
      = prefixOrDefault args ++ "-reader@" ++ args.projectId
        ++ ".iam.gserviceaccount.com"
    ∧ (gcpGithubSecretsOutputs gsArgs { projectNumber := 9 }).workloadIdentityPoolId
      = "gs-pool"
    ∧ (gcpGithubSecretsOutputs gsArgs { projectNumber := 9 }).workloadIdentityProviderId
      = "gs-github"
    ∧ (gcpGithubSecretsOutputs gsArgs { projectNumber := 9 }).serviceAccountEmail
      = "gs-reader@p1.iam.gserviceaccount.com" :=
  ⟨rfl, rfl, rfl, by decide, by decide, by decide⟩

/-- C9: permuting `allowedRepositories` (with the rest of the configuration
unchanged) yields the same multiset of (role, member) IAM policy entries —
the end state of the bindings is order independent (set semantics). -/
theorem c9_order_independence (name : String) (env : GcpEnv)
    (a b : GcpGithubSecretsArgs)
    (hpid : a.projectId = b.projectId)
    (hpre : a.resourcePrefixArg = b.resourcePrefixArg)
    (hperm : a.allowedRepositories.Perm b.allowedRepositories) :
    (iamPairs (gcpGithubSecretsResources name a env)).Perm
      (iamPairs (gcpGithubSecretsResources name b env)) := by
  rw [iamPairs_resources, iamPairs_resources]
  have hprefix : prefixOrDefault a = prefixOrDefault b := by
    unfold prefixOrDefault
    rw [hpre]
  have hemail : serviceAccountEmailOf a = serviceAccountEmailOf b := by
    unfold serviceAccountEmailOf
    rw [hpid, hprefix]
  rw [hemail, hprefix]
  exact List.Perm.cons _ (hperm.map _)

/-- Two permuted-repository configurations for the C9 witness. -/
def twoRepoArgs : GcpGithubSecretsArgs :=
  { projectId := "p1", allowedRepositories := ["acme/api", "acme/web"],
    secrets := [], resourcePrefixArg := none }

/-- `twoRepoArgs` with the repository list reversed. -/
def twoRepoArgsRev : GcpGithubSecretsArgs :=
  { projectId := "p1", allowedRepositories := ["acme/web", "acme/api"],
    secrets := [], resourcePrefixArg := none }

theorem c9_order_independence_witness :
    (iamPairs (gcpGithubSecretsResources "deploy" twoRepoArgs { projectNumber := 9 })).Perm
      (iamPairs (gcpGithubSecretsResources "deploy" twoRepoArgsRev { projectNumber := 9 })) :=
  c9_order_independence "deploy" { projectNumber := 9 } twoRepoArgs twoRepoArgsRev
    rfl rfl (List.Perm.swap _ _ _)

/-- C10: the service-identity variant is the only variant — the argument
type `GcpGithubSecretsArgs` has no `useServiceAccount` field, every
configuration declares exactly one service account, and the
`serviceAccountEmail` output is always present (never absent), equal to the
derived reader email. -/
theorem c10_service_identity_only_variant (name : String)
    (args : GcpGithubSecretsArgs) (env : GcpEnv) :
    countServiceAccounts (gcpGithubSecretsResources name args env) = 1
    ∧ (gcpGithubSecretsOutputs args env).serviceAccountEmail
      = prefixOrDefault args ++ "-reader@" ++ args.projectId
        ++ ".iam.gserviceaccount.com" := by
  constructor
  · unfold gcpGithubSecretsResources
    rw [countServiceAccounts_cons, countServiceAccounts_cons, countServiceAccounts_cons,
      countServiceAccounts_cons, countServiceAccounts_append,
      countServiceAccounts_wifBindings, countServiceAccounts_secretResources]
    simp [isServiceAccount]
  · rfl
